import Mathlib

/-!
Verification of the measurement aggregation, recommendation and formatting
core of the shade-measurement application.

The numeric code of the source operates on JavaScript numbers; it is
embedded here over the rationals `ℚ`, with `Math.ceil`/`Math.floor`
embedded as `Int.ceil`/`Int.floor` and `Math.round` as the
round-half-toward-positive-infinity function `jsRound`.  The functions
are translated from:
  * `src/utils/format.ts`  (`roundUpToSixteenth`, `formatInchesFraction`,
    `simplifyFraction`, `findGCD`, `formatDimensions`, `formatConfidence`),
  * `src/utils/aggregate.ts` (`aggregateResults`,
    `shouldRecommendAdditionalPass`),
  * the self-contained page component (`roundUp`, `aggregate`).
-/

/-- One measurement pass, from `providers/types.ts`:
`widthInInches`, `heightInInches`, `confidence` are numbers, `category` a
string literal type, `timestamp` a number (integral milliseconds).  The
optional `frameMetadata` field is opaque to the engine and omitted. -/
structure PassResult where
  widthInInches : ℚ
  heightInInches : ℚ
  confidence : ℚ
  category : String
  timestamp : ℤ
deriving DecidableEq, Repr

/-- `Math.max(...xs)` for a spread list; the source only spreads non-empty
lists, so the `[]` default value is never relevant at any call site. -/
def mathMax : List ℚ → ℚ
  | [] => 0
  | x :: xs => xs.foldl max x

/-- `Math.min(...xs)` for a spread list; only applied to non-empty lists. -/
def mathMin : List ℚ → ℚ
  | [] => 0
  | x :: xs => xs.foldl min x

/-- `Math.round`: rounds half toward positive infinity. -/
def jsRound (q : ℚ) : ℤ := ⌊q + 1/2⌋

/-- `roundUpToSixteenth` from `format.ts`:
`Math.ceil(inches * 16) / 16`. -/
def roundUpToSixteenth (inches : ℚ) : ℚ :=
  (⌈inches * 16⌉ : ℚ) / 16

/-- `findGCD` from `format.ts` (Euclidean algorithm); both call-site
arguments are non-negative integers, so it is embedded over `ℕ`. -/
def findGCD (a b : ℕ) : ℕ :=
  if b = 0 then a else findGCD b (a % b)
termination_by b
decreasing_by exact Nat.mod_lt _ (Nat.pos_of_ne_zero (by assumption))

/-- Result shape of `simplifyFraction`. -/
structure SimpleFraction where
  numerator : ℕ
  denominator : ℕ
deriving DecidableEq, Repr

/-- `simplifyFraction` from `format.ts`: divide both parts by their GCD. -/
def simplifyFraction (numerator denominator : ℕ) : SimpleFraction :=
  let gcd := findGCD numerator denominator
  ⟨numerator / gcd, denominator / gcd⟩

/-- `formatInchesFraction` from `format.ts`. -/
def formatInchesFraction (inches : ℚ) : String :=
  let rounded := roundUpToSixteenth inches
  let whole : ℤ := ⌊rounded⌋
  let remainder : ℚ := rounded - whole
  if remainder = 0 then
    toString whole ++ "\""
  else
    let sixteenths : ℕ := (jsRound (remainder * 16)).toNat
    let f := simplifyFraction sixteenths 16
    if whole = 0 then
      toString f.numerator ++ "/" ++ toString f.denominator ++ "\""
    else
      toString whole ++ " " ++ toString f.numerator ++ "/" ++
        toString f.denominator ++ "\""

/-- `formatDimensions` from `format.ts`. -/
def formatDimensions (widthInches heightInches : ℚ) : String :=
  let width := formatInchesFraction widthInches
  let height := formatInchesFraction heightInches
  width ++ " × " ++ height

/-- `formatConfidence` from `format.ts`. -/
def formatConfidence (confidence : ℚ) : String :=
  toString (jsRound (confidence * 100)) ++ "%"

/-- Result record of `aggregateResults`, from `aggregate.ts`. -/
structure AggregatedResult where
  widthInches : ℚ
  heightInches : ℚ
  averageConfidence : ℚ
  category : String
  passCount : ℕ
  passes : List PassResult
deriving DecidableEq, Repr

/-- `aggregateResults` from `aggregate.ts`. -/
def aggregateResults (passes : List PassResult) : AggregatedResult :=
  if passes.length = 0 then
    { widthInches := 0
      heightInches := 0
      averageConfidence := 0
      category := "Not Great"
      passCount := 0
      passes := [] }
  else
    let maxWidth := mathMax (passes.map (·.widthInInches))
    let maxHeight := mathMax (passes.map (·.heightInInches))
    let finalWidth := roundUpToSixteenth maxWidth
    let finalHeight := roundUpToSixteenth maxHeight
    let avgConfidence :=
      (passes.foldl (fun sum p => sum + p.confidence) (0 : ℚ)) / (passes.length : ℚ)
    let category : String :=
      if avgConfidence ≥ 0.85 then "Excellent"
      else if avgConfidence ≥ 0.65 then "OK"
      else "Not Great"
    { widthInches := finalWidth
      heightInches := finalHeight
      averageConfidence := avgConfidence
      category := category
      passCount := passes.length
      passes := passes }

/-- Result pair of `shouldRecommendAdditionalPass`. -/
structure Recommendation where
  recommend : Bool
  reason : String
deriving DecidableEq, Repr

/-- `shouldRecommendAdditionalPass` from `aggregate.ts`. -/
def shouldRecommendAdditionalPass (passes : List PassResult) :
    Recommendation :=
  if passes.length = 0 then
    ⟨false, "No passes yet"⟩
  else if passes.length ≥ 3 then
    ⟨false, "Maximum passes reached"⟩
  else
    let avgConfidence :=
      (passes.foldl (fun sum p => sum + p.confidence) (0 : ℚ)) / (passes.length : ℚ)
    if avgConfidence < 0.65 then
      ⟨true, "Low confidence - an additional pass may improve accuracy"⟩
    else if passes.length ≥ 2 then
      let widths := passes.map (·.widthInInches)
      let heights := passes.map (·.heightInInches)
      let widthVariance := mathMax widths - mathMin widths
      let heightVariance := mathMax heights - mathMin heights
      if widthVariance > 1 ∨ heightVariance > 1 then
        ⟨true, "Measurements vary between passes - an additional pass may help"⟩
      else
        ⟨false, "Measurements look good"⟩
    else
      ⟨false, "Measurements look good"⟩

/-- `roundUp` from the self-contained page component:
`Math.ceil(n * 16) / 16`. -/
def roundUp (n : ℚ) : ℚ := (⌈n * 16⌉ : ℚ) / 16

/-- Result shape of the inline `aggregate` of the page component. -/
structure InlineAggregated where
  width : ℚ
  height : ℚ
  confidence : ℚ
  category : String
  passCount : ℕ
deriving DecidableEq, Repr

/-- `aggregate` from the self-contained page component: returns `null`
(here `none`) on the empty sequence, otherwise the max/average record. -/
def aggregate (passes : List PassResult) : Option InlineAggregated :=
  if passes.length = 0 then none
  else
    let maxW := mathMax (passes.map (·.widthInInches))
    let maxH := mathMax (passes.map (·.heightInInches))
    let avgConf :=
      (passes.foldl (fun sum p => sum + p.confidence) (0 : ℚ)) / (passes.length : ℚ)
    some
      { width := roundUp maxW
        height := roundUp maxH
        confidence := avgConf
        category :=
          if avgConf ≥ 0.85 then "Excellent"
          else if avgConf ≥ 0.65 then "OK"
          else "Not Great"
        passCount := passes.length }

/-! ### Helper lemmas -/

theorem foldl_max_le_self (xs : List ℚ) (a : ℚ) : a ≤ xs.foldl max a := by
  induction xs generalizing a with
  | nil => exact le_refl a
  | cons b xs ih => exact le_trans (le_max_left a b) (ih (max a b))

theorem le_foldl_max (xs : List ℚ) (a y : ℚ) (hy : y ∈ xs) :
    y ≤ xs.foldl max a := by
  induction xs generalizing a with
  | nil => cases hy
  | cons b xs ih =>
    rcases List.mem_cons.mp hy with h | h
    · subst h
      exact le_trans (le_max_right a y) (foldl_max_le_self xs (max a y))
    · exact ih (max a b) h

theorem foldl_max_mem (xs : List ℚ) (a : ℚ) :
    xs.foldl max a = a ∨ xs.foldl max a ∈ xs := by
  induction xs generalizing a with
  | nil => exact Or.inl rfl
  | cons b xs ih =>
    rcases ih (max a b) with h | h
    · rcases max_choice a b with hm | hm
      · exact Or.inl (by rw [List.foldl_cons, h, hm])
      · refine Or.inr (List.mem_cons.mpr (Or.inl ?_))
        rw [List.foldl_cons, h, hm]
    · exact Or.inr (List.mem_cons.mpr (Or.inr h))

theorem mathMax_spec (l : List ℚ) (h : l ≠ []) :
    mathMax l ∈ l ∧ ∀ y ∈ l, y ≤ mathMax l := by
  cases l with
  | nil => exact absurd rfl h
  | cons x xs =>
    constructor
    · rcases foldl_max_mem xs x with h | h
      · exact List.mem_cons.mpr (Or.inl (by rw [mathMax, h]))
      · exact List.mem_cons.mpr (Or.inr (by rw [mathMax]; exact h))
    · intro y hy
      rcases List.mem_cons.mp hy with h | h
      · subst h; exact foldl_max_le_self xs y
      · exact le_foldl_max xs x y h

theorem foldl_confidence_sum (l : List PassResult) (init : ℚ) :
    l.foldl (fun sum p => sum + p.confidence) init =
      init + (l.map (·.confidence)).sum := by
  induction l generalizing init with
  | nil => simp
  | cons p l ih =>
    rw [List.foldl_cons, ih, List.map_cons, List.sum_cons]
    ring

theorem findGCD_eq_gcd (a b : ℕ) : findGCD a b = Nat.gcd a b := by
  induction b using Nat.strong_induction_on generalizing a with
  | _ b ih =>
    rw [findGCD]
    by_cases hb : b = 0
    · simp [hb]
    · rw [if_neg hb, ih (a % b) (Nat.mod_lt a (Nat.pos_of_ne_zero hb)) b,
        Nat.gcd_comm b (a % b), ← Nat.gcd_rec, Nat.gcd_comm]

/-! ### Claims about the rounding utility -/

/-- C3: `roundUpToSixteenth x = ⌈x * 16⌉ / 16` is the smallest multiple of
`1/16` that is `≥ x`; hence `roundUpToSixteenth x ≥ x` and
`roundUpToSixteenth x - x < 1/16`, and any exact multiple of `1/16` is
returned unchanged (also for `x = 0` and negative `x`). -/
theorem roundUpToSixteenth_spec (x : ℚ) :
    roundUpToSixteenth x = (⌈x * 16⌉ : ℚ) / 16 ∧
    x ≤ roundUpToSixteenth x ∧
    roundUpToSixteenth x - x < 1 / 16 ∧
    (∃ k : ℤ, roundUpToSixteenth x = (k : ℚ) / 16) ∧
    (∀ k : ℤ, x ≤ (k : ℚ) / 16 → roundUpToSixteenth x ≤ (k : ℚ) / 16) ∧
    ((∃ k : ℤ, x = (k : ℚ) / 16) → roundUpToSixteenth x = x) := by
  have hceil : x * 16 ≤ (⌈x * 16⌉ : ℚ) := Int.le_ceil (x * 16)
  have hlt : (⌈x * 16⌉ : ℚ) < x * 16 + 1 := Int.ceil_lt_add_one (x * 16)
  refine ⟨rfl, ?_, ?_, ⟨⌈x * 16⌉, rfl⟩, ?_, ?_⟩
  · rw [roundUpToSixteenth, le_div_iff₀ (by norm_num : (0:ℚ) < 16)]
    exact hceil
  · rw [roundUpToSixteenth]
    rw [div_sub' _ _ _ (by norm_num : (16:ℚ) ≠ 0),
      div_lt_iff₀ (by norm_num : (0:ℚ) < 16)]
    ring_nf
    linarith
  · intro k hk
    rw [le_div_iff₀ (by norm_num : (0:ℚ) < 16)] at hk
    have : ⌈x * 16⌉ ≤ k := Int.ceil_le.mpr hk
    rw [roundUpToSixteenth]
    exact div_le_div_of_nonneg_right (by exact_mod_cast this) (by norm_num)
  · rintro ⟨k, rfl⟩
    rw [roundUpToSixteenth, div_mul_cancel₀ _ (by norm_num : (16:ℚ) ≠ 0),
      Int.ceil_intCast]

/-- Witness for C3 at concrete inputs: `36.5 = 584/16` is an exact multiple
of `1/16` and is returned unchanged. -/
theorem roundUpToSixteenth_spec_witness :
    (36.5 : ℚ) = ((584 : ℤ) : ℚ) / 16 ∧ roundUpToSixteenth 36.5 = 36.5 :=
  ⟨by norm_num, (roundUpToSixteenth_spec 36.5).2.2.2.2.2 ⟨584, by norm_num⟩⟩

/-- C7: `roundUpToSixteenth` is idempotent. -/
theorem roundUpToSixteenth_idempotent (x : ℚ) :
    roundUpToSixteenth (roundUpToSixteenth x) = roundUpToSixteenth x := by
  rw [roundUpToSixteenth, roundUpToSixteenth,
    div_mul_cancel₀ _ (by norm_num : (16:ℚ) ≠ 0), Int.ceil_intCast]

/-! ### Claims about the aggregation engine -/

/-- C4: on the empty sequence `aggregateResults` returns, as a normal
result, zero dimensions, zero confidence, zero pass count and category
`"Not Great"`. -/
theorem aggregateResults_empty :
    aggregateResults [] =
      { widthInches := 0, heightInches := 0, averageConfidence := 0,
        category := "Not Great", passCount := 0, passes := [] } := rfl

/-! ### Claims about the formatting utility -/

/-- C8: `formatDimensions` joins the two fraction strings with a space,
the multiplication-sign glyph × (U+00D7), and a space — not a plain
`'x'`. -/
theorem formatDimensions_spec (w h : ℚ) :
    formatDimensions w h =
      formatInchesFraction w ++ " × " ++ formatInchesFraction h ∧
    " × ".data = [' ', Char.ofNat 0xD7, ' '] ∧
    Char.ofNat 0xD7 ≠ 'x' :=
  ⟨rfl, by decide, by decide⟩

set_option maxHeartbeats 1000000 in
/-- C1: on a non-empty sequence, `aggregateResults` returns the
round-up-to-sixteenth of the component-wise maximum width and maximum
height, the unweighted arithmetic mean of the confidences, the category
obtained from the thresholds `≥ 0.85 → Excellent`, `≥ 0.65 → OK`,
otherwise `Not Great` applied first-match to that mean, and the length of
the sequence as pass count. -/
theorem aggregateResults_spec (passes : List PassResult) (h : passes ≠ []) :
    (∃ W ∈ passes.map (·.widthInInches),
      (∀ w ∈ passes.map (·.widthInInches), w ≤ W) ∧
      (aggregateResults passes).widthInches = roundUpToSixteenth W) ∧
    (∃ H ∈ passes.map (·.heightInInches),
      (∀ v ∈ passes.map (·.heightInInches), v ≤ H) ∧
      (aggregateResults passes).heightInches = roundUpToSixteenth H) ∧
    (aggregateResults passes).averageConfidence =
      (passes.map (·.confidence)).sum / (passes.length : ℚ) ∧
    (aggregateResults passes).category =
      (if (passes.map (·.confidence)).sum / (passes.length : ℚ) ≥ 0.85 then
        "Excellent"
       else if (passes.map (·.confidence)).sum / (passes.length : ℚ) ≥ 0.65 then
        "OK"
       else "Not Great") ∧
    (aggregateResults passes).passCount = passes.length := by
  have hlen : ¬ passes.length = 0 := by
    simpa [List.length_eq_zero] using h
  have havg : (passes.foldl (fun sum p => sum + p.confidence) (0 : ℚ)) /
      (passes.length : ℚ) =
      (passes.map (·.confidence)).sum / (passes.length : ℚ) := by
    rw [foldl_confidence_sum, zero_add]
  have hw := mathMax_spec (passes.map (·.widthInInches))
    (by simpa [List.map_eq_nil_iff] using h)
  have hh := mathMax_spec (passes.map (·.heightInInches))
    (by simpa [List.map_eq_nil_iff] using h)
  have hrec : aggregateResults passes =
      { widthInches :=
          roundUpToSixteenth (mathMax (passes.map (·.widthInInches)))
        heightInches :=
          roundUpToSixteenth (mathMax (passes.map (·.heightInInches)))
        averageConfidence :=
          (passes.map (·.confidence)).sum / (passes.length : ℚ)
        category :=
          if (passes.map (·.confidence)).sum / (passes.length : ℚ) ≥ 0.85 then
            "Excellent"
          else if (passes.map (·.confidence)).sum / (passes.length : ℚ) ≥ 0.65
            then "OK"
          else "Not Great"
        passCount := passes.length
        passes := passes } := by
    rw [aggregateResults, if_neg hlen]
    simp only [foldl_confidence_sum, zero_add]
  refine ⟨⟨mathMax (passes.map (·.widthInInches)), hw.1, hw.2, ?_⟩,
    ⟨mathMax (passes.map (·.heightInInches)), hh.1, hh.2, ?_⟩, ?_, ?_, ?_⟩ <;>
    rw [hrec]

/-- Witness for C1 on a concrete two-pass sequence. -/
theorem aggregateResults_spec_witness :
    (([⟨35.5, 48, 0.7, "OK", 0⟩, ⟨36.2, 47.5, 0.9, "Excellent", 1⟩] :
        List PassResult) ≠ []) ∧
    ((∃ W ∈ ([⟨35.5, 48, 0.7, "OK", 0⟩, ⟨36.2, 47.5, 0.9, "Excellent", 1⟩] :
        List PassResult).map (·.widthInInches),
      (∀ w ∈ ([⟨35.5, 48, 0.7, "OK", 0⟩, ⟨36.2, 47.5, 0.9, "Excellent", 1⟩] :
        List PassResult).map (·.widthInInches), w ≤ W) ∧
      (aggregateResults
        [⟨35.5, 48, 0.7, "OK", 0⟩, ⟨36.2, 47.5, 0.9, "Excellent", 1⟩]).widthInches =
        roundUpToSixteenth W) ∧
    (∃ H ∈ ([⟨35.5, 48, 0.7, "OK", 0⟩, ⟨36.2, 47.5, 0.9, "Excellent", 1⟩] :
        List PassResult).map (·.heightInInches),
      (∀ v ∈ ([⟨35.5, 48, 0.7, "OK", 0⟩, ⟨36.2, 47.5, 0.9, "Excellent", 1⟩] :
        List PassResult).map (·.heightInInches), v ≤ H) ∧
      (aggregateResults
        [⟨35.5, 48, 0.7, "OK", 0⟩, ⟨36.2, 47.5, 0.9, "Excellent", 1⟩]).heightInches =
        roundUpToSixteenth H) ∧
    (aggregateResults
        [⟨35.5, 48, 0.7, "OK", 0⟩, ⟨36.2, 47.5, 0.9, "Excellent", 1⟩]).averageConfidence =
      (([⟨35.5, 48, 0.7, "OK", 0⟩, ⟨36.2, 47.5, 0.9, "Excellent", 1⟩] :
        List PassResult).map (·.confidence)).sum / 2 ∧
    (aggregateResults
        [⟨35.5, 48, 0.7, "OK", 0⟩, ⟨36.2, 47.5, 0.9, "Excellent", 1⟩]).category =
      (if (([⟨35.5, 48, 0.7, "OK", 0⟩, ⟨36.2, 47.5, 0.9, "Excellent", 1⟩] :
          List PassResult).map (·.confidence)).sum / 2 ≥ 0.85 then "Excellent"
       else if (([⟨35.5, 48, 0.7, "OK", 0⟩, ⟨36.2, 47.5, 0.9, "Excellent", 1⟩] :
          List PassResult).map (·.confidence)).sum / 2 ≥ 0.65 then "OK"
       else "Not Great") ∧
    (aggregateResults
        [⟨35.5, 48, 0.7, "OK", 0⟩, ⟨36.2, 47.5, 0.9, "Excellent", 1⟩]).passCount = 2) :=
  ⟨by simp,
   aggregateResults_spec
     [⟨35.5, 48, 0.7, "OK", 0⟩, ⟨36.2, 47.5, 0.9, "Excellent", 1⟩] (by simp)⟩

set_option maxHeartbeats 1000000 in
/-- C2: `shouldRecommendAdditionalPass` is the ordered first-match chain:
empty → no passes yet; length ≥ 3 → maximum reached; mean confidence
< 0.65 → low confidence; at least 2 passes with width range or height
range exceeding 1.0 → measurements vary; otherwise measurements look
good. -/
theorem shouldRecommendAdditionalPass_chain (passes : List PassResult) :
    shouldRecommendAdditionalPass passes =
      if passes.length = 0 then
        ⟨false, "No passes yet"⟩
      else if 3 ≤ passes.length then
        ⟨false, "Maximum passes reached"⟩
      else if (passes.map (·.confidence)).sum / (passes.length : ℚ) < 0.65 then
        ⟨true, "Low confidence - an additional pass may improve accuracy"⟩
      else if 2 ≤ passes.length ∧
          (mathMax (passes.map (·.widthInInches)) -
             mathMin (passes.map (·.widthInInches)) > 1 ∨
           mathMax (passes.map (·.heightInInches)) -
             mathMin (passes.map (·.heightInInches)) > 1) then
        ⟨true, "Measurements vary between passes - an additional pass may help"⟩
      else
        ⟨false, "Measurements look good"⟩ := by
  rw [shouldRecommendAdditionalPass]
  by_cases h0 : passes.length = 0
  · simp [h0]
  · rw [if_neg h0, if_neg h0]
    by_cases h3 : passes.length ≥ 3
    · rw [if_pos h3, if_pos h3]
    · rw [if_neg h3, if_neg h3, foldl_confidence_sum, zero_add]
      by_cases hc :
          (passes.map (·.confidence)).sum / (passes.length : ℚ) < 0.65
      · rw [if_pos hc, if_pos hc]
      · rw [if_neg hc, if_neg hc]
        by_cases h2 : passes.length ≥ 2
        · rw [if_pos h2]
          by_cases hv :
              mathMax (passes.map (·.widthInInches)) -
                mathMin (passes.map (·.widthInInches)) > 1 ∨
              mathMax (passes.map (·.heightInInches)) -
                mathMin (passes.map (·.heightInInches)) > 1
          · rw [if_pos hv, if_pos ⟨h2, hv⟩]
          · rw [if_neg hv, if_neg (by tauto)]
        · rw [if_neg h2, if_neg (by tauto)]

/-- C5: with 3 or more passes the policy returns `recommend = false` with
the reason `"Maximum passes reached"` (which contains `"Maximum passes"`),
whatever the confidences and spreads are; and however many further passes
are appended, it still never recommends another pass. -/
theorem shouldRecommendAdditionalPass_max_cap (passes : List PassResult)
    (h : 3 ≤ passes.length) :
    shouldRecommendAdditionalPass passes =
      ⟨false, "Maximum passes reached"⟩ ∧
    "Maximum passes".data <:+:
      (shouldRecommendAdditionalPass passes).reason.data ∧
    ∀ more : List PassResult,
      (shouldRecommendAdditionalPass (passes ++ more)).recommend = false := by
  have key : ∀ l : List PassResult, 3 ≤ l.length →
      shouldRecommendAdditionalPass l = ⟨false, "Maximum passes reached"⟩ := by
    intro l hl
    have h0 : ¬ l.length = 0 := by omega
    rw [shouldRecommendAdditionalPass, if_neg h0, if_pos hl]
  refine ⟨key passes h, ?_, ?_⟩
  · rw [key passes h]
    exact ⟨[], " reached".data, rfl⟩
  · intro more
    have : 3 ≤ (passes ++ more).length := by
      rw [List.length_append]; omega
    rw [key (passes ++ more) this]

/-- Witness for C5 on a concrete three-pass sequence. -/
theorem shouldRecommendAdditionalPass_max_cap_witness :
    3 ≤ ([⟨30, 40, 0.1, "Not Great", 0⟩, ⟨99, 40, 0.2, "Not Great", 1⟩,
          ⟨30, 90, 0.3, "Not Great", 2⟩] : List PassResult).length ∧
    (shouldRecommendAdditionalPass
        [⟨30, 40, 0.1, "Not Great", 0⟩, ⟨99, 40, 0.2, "Not Great", 1⟩,
         ⟨30, 90, 0.3, "Not Great", 2⟩] =
      ⟨false, "Maximum passes reached"⟩ ∧
    "Maximum passes".data <:+:
      (shouldRecommendAdditionalPass
        [⟨30, 40, 0.1, "Not Great", 0⟩, ⟨99, 40, 0.2, "Not Great", 1⟩,
         ⟨30, 90, 0.3, "Not Great", 2⟩]).reason.data ∧
    ∀ more : List PassResult,
      (shouldRecommendAdditionalPass
        (([⟨30, 40, 0.1, "Not Great", 0⟩, ⟨99, 40, 0.2, "Not Great", 1⟩,
           ⟨30, 90, 0.3, "Not Great", 2⟩] : List PassResult) ++ more)).recommend =
        false) :=
  ⟨by simp,
   shouldRecommendAdditionalPass_max_cap
     [⟨30, 40, 0.1, "Not Great", 0⟩, ⟨99, 40, 0.2, "Not Great", 1⟩,
      ⟨30, 90, 0.3, "Not Great", 2⟩] (by simp)⟩

/-- C9: the engine functions are pure: the result of `aggregateResults`
carries the input sequence unchanged, and re-running either function on
that carried sequence reproduces the first result (safe repeated,
read-only use). -/
theorem engine_functions_pure (passes : List PassResult) :
    (aggregateResults passes).passes = passes ∧
    aggregateResults ((aggregateResults passes).passes) =
      aggregateResults passes ∧
    shouldRecommendAdditionalPass ((aggregateResults passes).passes) =
      shouldRecommendAdditionalPass passes := by
  have hp : (aggregateResults passes).passes = passes := by
    rw [aggregateResults]
    by_cases h0 : passes.length = 0
    · rw [if_pos h0]
      exact (List.length_eq_zero.mp h0).symm
    · rw [if_neg h0]
  exact ⟨hp, by rw [hp], by rw [hp]⟩

/-- The page component's `roundUp` is the same function as the utility
`roundUpToSixteenth`. -/
theorem roundUp_eq_roundUpToSixteenth (n : ℚ) :
    roundUp n = roundUpToSixteenth n := rfl

set_option maxHeartbeats 1000000 in
/-- C10: on every non-empty sequence the page component's inline
`aggregate` agrees field-by-field with `aggregateResults`; on the empty
sequence it returns `none` (the embedding of `null`) instead of the zero
result. -/
theorem aggregate_agrees_with_aggregateResults (passes : List PassResult)
    (h : passes ≠ []) :
    (∃ r, aggregate passes = some r ∧
      r.width = (aggregateResults passes).widthInches ∧
      r.height = (aggregateResults passes).heightInches ∧
      r.confidence = (aggregateResults passes).averageConfidence ∧
      r.category = (aggregateResults passes).category ∧
      r.passCount = (aggregateResults passes).passCount) ∧
    aggregate [] = none := by
  have hlen : ¬ passes.length = 0 := by
    simpa [List.length_eq_zero] using h
  refine ⟨⟨⟨roundUp (mathMax (passes.map (·.widthInInches))),
      roundUp (mathMax (passes.map (·.heightInInches))),
      (passes.foldl (fun sum p => sum + p.confidence) (0 : ℚ)) /
        (passes.length : ℚ),
      if (passes.foldl (fun sum p => sum + p.confidence) (0 : ℚ)) /
          (passes.length : ℚ) ≥ 0.85 then "Excellent"
      else if (passes.foldl (fun sum p => sum + p.confidence) (0 : ℚ)) /
          (passes.length : ℚ) ≥ 0.65 then "OK"
      else "Not Great",
      passes.length⟩, ?_, ?_, ?_, ?_, ?_, ?_⟩, rfl⟩ <;>
    simp only [aggregate, aggregateResults, if_neg hlen,
      roundUp_eq_roundUpToSixteenth]

/-- Witness for C10 on a concrete one-pass sequence. -/
theorem aggregate_agrees_with_aggregateResults_witness :
    (([⟨36.2, 48.1, 0.9, "Excellent", 5⟩] : List PassResult) ≠ []) ∧
    ((∃ r, aggregate [⟨36.2, 48.1, 0.9, "Excellent", 5⟩] = some r ∧
      r.width =
        (aggregateResults [⟨36.2, 48.1, 0.9, "Excellent", 5⟩]).widthInches ∧
      r.height =
        (aggregateResults [⟨36.2, 48.1, 0.9, "Excellent", 5⟩]).heightInches ∧
      r.confidence =
        (aggregateResults
          [⟨36.2, 48.1, 0.9, "Excellent", 5⟩]).averageConfidence ∧
      r.category =
        (aggregateResults [⟨36.2, 48.1, 0.9, "Excellent", 5⟩]).category ∧
      r.passCount =
        (aggregateResults [⟨36.2, 48.1, 0.9, "Excellent", 5⟩]).passCount) ∧
    aggregate [] = none) :=
  ⟨by simp,
   aggregate_agrees_with_aggregateResults
     [⟨36.2, 48.1, 0.9, "Excellent", 5⟩] (by simp)⟩

/-- `Math.round` of an integer value is that integer. -/
theorem jsRound_intCast (z : ℤ) : jsRound (z : ℚ) = z := by
  rw [jsRound, add_comm, Int.floor_add_int]
  norm_num

/-- The fractional part of the rounded value, scaled by 16, is the integer
`⌈x * 16⌉ - 16 * ⌊roundUpToSixteenth x⌋`. -/
theorem sixteen_mul_fract (x : ℚ) :
    ((⌈x * 16⌉ - 16 * ⌊roundUpToSixteenth x⌋ : ℤ) : ℚ) =
      (roundUpToSixteenth x - (⌊roundUpToSixteenth x⌋ : ℚ)) * 16 := by
  rw [roundUpToSixteenth, sub_mul,
    div_mul_cancel₀ _ (by norm_num : (16:ℚ) ≠ 0)]
  push_cast
  ring

set_option maxHeartbeats 1000000 in
/-- C6: `formatInchesFraction` first rounds up to a sixteenth and splits
the rounded value into a whole part and a remainder in `[0, 1)`; a zero
remainder yields `"<whole>\""`; otherwise the remainder is an integer
number of sixteenths between 1 and 15 and the fraction over 16 is reduced
to lowest terms by the greatest common divisor, printed as
`"<whole> <num>/<den>\""` for a positive whole part and `"<num>/<den>\""`
(no leading `"0"`) for a zero whole part. -/
theorem formatInchesFraction_spec (x : ℚ) :
    0 ≤ roundUpToSixteenth x - (⌊roundUpToSixteenth x⌋ : ℚ) ∧
    roundUpToSixteenth x - (⌊roundUpToSixteenth x⌋ : ℚ) < 1 ∧
    (roundUpToSixteenth x - (⌊roundUpToSixteenth x⌋ : ℚ) = 0 →
      formatInchesFraction x = toString ⌊roundUpToSixteenth x⌋ ++ "\"") ∧
    (roundUpToSixteenth x - (⌊roundUpToSixteenth x⌋ : ℚ) ≠ 0 →
      ∃ s : ℕ, 1 ≤ s ∧ s ≤ 15 ∧
        (s : ℚ) = (roundUpToSixteenth x - (⌊roundUpToSixteenth x⌋ : ℚ)) * 16 ∧
        (0 < ⌊roundUpToSixteenth x⌋ →
          formatInchesFraction x =
            toString ⌊roundUpToSixteenth x⌋ ++ " " ++
              toString (s / Nat.gcd s 16) ++ "/" ++
              toString (16 / Nat.gcd s 16) ++ "\"") ∧
        (⌊roundUpToSixteenth x⌋ = 0 →
          formatInchesFraction x =
            toString (s / Nat.gcd s 16) ++ "/" ++
              toString (16 / Nat.gcd s 16) ++ "\"")) := by
  have hfl : ((⌊roundUpToSixteenth x⌋ : ℤ) : ℚ) ≤ roundUpToSixteenth x :=
    Int.floor_le _
  have hfu : roundUpToSixteenth x < (⌊roundUpToSixteenth x⌋ : ℚ) + 1 :=
    Int.lt_floor_add_one _
  refine ⟨by linarith, by linarith, ?_, ?_⟩
  · intro hrem
    simp only [formatInchesFraction]
    rw [if_pos hrem]
  · intro hrem
    have hpos : (0 : ℚ) < roundUpToSixteenth x - (⌊roundUpToSixteenth x⌋ : ℚ) :=
      lt_of_le_of_ne (by linarith) (Ne.symm hrem)
    have hlb : (0 : ℚ) <
        (roundUpToSixteenth x - (⌊roundUpToSixteenth x⌋ : ℚ)) * 16 :=
      mul_pos hpos (by norm_num)
    have hub : (roundUpToSixteenth x - (⌊roundUpToSixteenth x⌋ : ℚ)) * 16 <
        16 := by nlinarith
    have hZpos : 0 < (⌈x * 16⌉ - 16 * ⌊roundUpToSixteenth x⌋ : ℤ) := by
      have := sixteen_mul_fract x
      exact_mod_cast this ▸ hlb
    have hZlt : (⌈x * 16⌉ - 16 * ⌊roundUpToSixteenth x⌋ : ℤ) < 16 := by
      have := sixteen_mul_fract x
      exact_mod_cast this ▸ hub
    set S : ℕ := (⌈x * 16⌉ - 16 * ⌊roundUpToSixteenth x⌋ : ℤ).toNat with hSdef
    have hScast : ((S : ℤ) : ℚ) =
        (roundUpToSixteenth x - (⌊roundUpToSixteenth x⌋ : ℚ)) * 16 := by
      rw [hSdef, Int.toNat_of_nonneg (le_of_lt hZpos)]
      exact sixteen_mul_fract x
    have hSint : (S : ℤ) = ⌈x * 16⌉ - 16 * ⌊roundUpToSixteenth x⌋ := by
      rw [hSdef]
      exact Int.toNat_of_nonneg (le_of_lt hZpos)
    have hjs : (jsRound
        ((roundUpToSixteenth x - (⌊roundUpToSixteenth x⌋ : ℚ)) * 16)).toNat =
        S := by
      rw [← hScast, jsRound_intCast]
      exact Int.toNat_natCast S
    have key : formatInchesFraction x =
        if (⌊roundUpToSixteenth x⌋ : ℤ) = 0 then
          toString (S / Nat.gcd S 16) ++ "/" ++
            toString (16 / Nat.gcd S 16) ++ "\""
        else
          toString ⌊roundUpToSixteenth x⌋ ++ " " ++
            toString (S / Nat.gcd S 16) ++ "/" ++
            toString (16 / Nat.gcd S 16) ++ "\"" := by
      simp only [formatInchesFraction]
      rw [if_neg hrem, hjs]
      simp only [simplifyFraction, findGCD_eq_gcd]
    refine ⟨S, by omega, by omega, by exact_mod_cast hScast,
      fun hwpos => ?_, fun hwzero => ?_⟩
    · rw [key, if_neg (by omega)]
    · rw [key, if_pos hwzero]

/-- Witness for C6 at the concrete input `36.5` (nonzero remainder,
positive whole part, `8/16` reduced to `1/2`). -/
theorem formatInchesFraction_spec_witness :
    roundUpToSixteenth (36.5:ℚ) - (⌊roundUpToSixteenth (36.5:ℚ)⌋ : ℚ) ≠ 0 ∧
    (∃ s : ℕ, 1 ≤ s ∧ s ≤ 15 ∧
      (s : ℚ) =
        (roundUpToSixteenth (36.5:ℚ) -
          (⌊roundUpToSixteenth (36.5:ℚ)⌋ : ℚ)) * 16 ∧
      (0 < ⌊roundUpToSixteenth (36.5:ℚ)⌋ →
        formatInchesFraction (36.5:ℚ) =
          toString ⌊roundUpToSixteenth (36.5:ℚ)⌋ ++ " " ++
            toString (s / Nat.gcd s 16) ++ "/" ++
            toString (16 / Nat.gcd s 16) ++ "\"") ∧
      (⌊roundUpToSixteenth (36.5:ℚ)⌋ = 0 →
        formatInchesFraction (36.5:ℚ) =
          toString (s / Nat.gcd s 16) ++ "/" ++
            toString (16 / Nat.gcd s 16) ++ "\"")) :=
  ⟨by norm_num [roundUpToSixteenth],
   (formatInchesFraction_spec 36.5).2.2.2 (by norm_num [roundUpToSixteenth])⟩
